import Mathlib

/-!
Verification of the vfxnaming naming-convention engine.

The development shallowly embeds the two source modules:
* `Tok` models `src/naming/tokens.py` (refined `Token` / `TokenNumber`);
* `Nm` models `src/naming/naming.py` (self-contained `Token` / `TokenNumber` /
  `Rule` plus the process-wide rule registry and the module-level
  `solve` / `parse` helpers).

Python strings are modelled as `List Char`; Python dictionaries as
insertion-ordered association lists with unique keys (`dlookup`, `dinsert`,
`derase` mirror `d[k]` / `d.get(k)`, `d[k] = v` and `del d[k]`).  All integers
appearing in the claims are non-negative, so they are modelled as `Nat`.
-/

namespace Vfx

/-- Python strings, modelled as lists of characters. -/
abbrev PyStr := List Char

/-- The character for a decimal digit (0..9); models the digits produced by
Python `str(int)`. -/
def digitChar : Nat → Char
  | 0 => '0'
  | 1 => '1'
  | 2 => '2'
  | 3 => '3'
  | 4 => '4'
  | 5 => '5'
  | 6 => '6'
  | 7 => '7'
  | 8 => '8'
  | _ => '9'

/-- Decimal digits of `n`, most significant first; empty for `n = 0`.
Fuel-based so that closed terms reduce in the kernel. -/
def natDigsAux : Nat → Nat → List Char
  | 0, _ => []
  | fuel + 1, n =>
    if n = 0 then [] else natDigsAux fuel (n / 10) ++ [digitChar (n % 10)]

/-- Model of Python `str(n)` for a non-negative integer `n`. -/
def natToStr (n : Nat) : PyStr :=
  if n = 0 then ['0'] else natDigsAux n n

/-- Numeric value of a digit string (the model of Python `int(s)` on an
all-digit string). -/
def digitsVal (s : PyStr) : Nat :=
  s.foldl (fun a c => 10 * a + (c.toNat - 48)) 0

/-- Model of Python `str.isdigit()`: non-empty and every character a digit. -/
def pyIsDigitStr (s : PyStr) : Bool :=
  !s.isEmpty && s.all Char.isDigit

/-- Model of Python `str.zfill(w)`: left-pad with zeros to width at least `w`. -/
def zfill (s : PyStr) (w : Nat) : PyStr :=
  if w ≤ s.length then s else List.replicate (w - s.length) '0' ++ s

/-- Result of `TokenNumber.parse`: a number, the implicit Python `None`
fall-through, or a raised `ValueError` from `int()`. -/
inductive ParseRes where
  | val (n : Nat)
  | noneV
  | err
deriving DecidableEq

/-- Model of Python `int(s)` on a sliced string: succeeds exactly on non-empty
all-digit strings, otherwise raises `ValueError`. -/
def pyInt (s : PyStr) : ParseRes :=
  if pyIsDigitStr s then ParseRes.val (digitsVal s) else ParseRes.err

/-- Shared scan loop of `TokenNumber.parse` (both the prefix scan and, applied
to the reversed string, the suffix scan).  Translates

  for each in value:
      if each.isdigit() and idx == 0: idx = -1; break
      elif each.isdigit() and idx > 0: break
      idx += 1

`Option.none` models the sentinel `-1`. -/
def scanRun : PyStr → Nat → Option Nat
  | [], acc => some acc
  | c :: rest, acc =>
    if c.isDigit then (if acc = 0 then Option.none else some acc)
    else scanRun rest (acc + 1)

/-- Python slice `value[:-si]` for `si ≥ 0`. -/
def sliceNeg (value : PyStr) (si : Nat) : PyStr :=
  if si = 0 then [] else value.take (value.length - si)

/-- Python slice `value[pi:-si]` for `pi, si ≥ 0`. -/
def sliceMid (value : PyStr) (pi si : Nat) : PyStr :=
  if si = 0 then [] else (value.take (value.length - si)).drop pi

/-- `TokenNumber.parse(value)`.  The body is identical (up to loop phrasing)
in `tokens.py` lines 152-187 and `naming.py` lines 107-136, so both classes
share this translation. -/
def tokenNumberParse (value : PyStr) : ParseRes :=
  if pyIsDigitStr value then ParseRes.val (digitsVal value)
  else
    match scanRun value 0, scanRun value.reverse 0 with
    | Option.none, some si => pyInt (sliceNeg value si)
    | some pi, Option.none => pyInt (value.drop pi)
    | some pi, some si => pyInt (sliceMid value pi si)
    | Option.none, Option.none => ParseRes.noneV

/-- Python dict lookup `d.get(k)` on an insertion-ordered association list. -/
def dlookup {α : Type} : List (PyStr × α) → PyStr → Option α
  | [], _ => Option.none
  | (k, v) :: rest, key => if k = key then some v else dlookup rest key

/-- Python dict assignment `d[k] = v`: update in place if the key exists,
otherwise append. -/
def dinsert {α : Type} : List (PyStr × α) → PyStr → α → List (PyStr × α)
  | [], key, v => [(key, v)]
  | (k, w) :: rest, key, v =>
    if k = key then (k, v) :: rest else (k, w) :: dinsert rest key v

/-- Python dict deletion `del d[k]` (on unique-keyed lists). -/
def derase {α : Type} (l : List (PyStr × α)) (key : PyStr) : List (PyStr × α) :=
  l.filter (fun kv => decide (kv.1 ≠ key))

/-- Python truthiness of an optional string argument (`if name:`). -/
def truthy : Option PyStr → Bool
  | Option.none => false
  | some s => !s.isEmpty

namespace Tok

/-! Embedding of `src/naming/tokens.py`. -/

/-- The refined `Token` class: name, memoized `_default`, and the
insertion-ordered `_options` dict mapping full names to abbreviations. -/
structure Token where
  name : PyStr
  dflt : Option PyStr
  options : List (PyStr × PyStr)
deriving DecidableEq

/-- `Token.add_option(key, value)`. -/
def Token.add_option (t : Token) (key value : PyStr) : Token :=
  { t with options := dinsert t.options key value }

/-- Value returned by the `Token.default` getter (lines 100-110): the cached
`_default` if set, else the first option value when options exist, else `None`.
The getter also memoizes this value in `_default`; the memoization is modelled
separately by `Token.defaultGet` and does not change the returned value. -/
def Token.defaultVal (t : Token) : Option PyStr :=
  match t.dflt, t.options with
  | Option.none, (_, v) :: _ => some v
  | d, _ => d

/-- The `Token.default` getter including its caching side effect: returns the
updated token together with the value returned to the caller. -/
def Token.defaultGet (t : Token) : Token × Option PyStr :=
  match t.dflt, t.options with
  | Option.none, (_, v) :: _ => ({ t with dflt := some v }, some v)
  | d, _ => (t, d)

/-- The `Token.default` setter (lines 112-116): assigns only when options are
non-empty and the assigned value occurs among the option VALUES. -/
def Token.setDefault (t : Token) (d : PyStr) : Token :=
  if 1 ≤ t.options.length then
    (if d ∈ t.options.map Prod.snd then { t with dflt := some d } else t)
  else t

/-- The `Token.required` property: `default is None`. -/
def Token.requiredB (t : Token) : Bool :=
  t.defaultVal.isNone

/-- Errors raised by `Token.solve`; `notFound` carries the option keys that the
exception message enumerates via `', '.join(self._options.keys())`. -/
inductive TErr where
  | requiredMissing (tokenName : PyStr)
  | notFound (name : PyStr) (tokenName : PyStr) (optionKeys : List PyStr)
deriving DecidableEq

/-- Result of `Token.solve`: a returned value (possibly the implicit Python
`None` fall-through) or a raised exception. -/
inductive SolveRes where
  | ok (v : Option PyStr)
  | err (e : TErr)
deriving DecidableEq

/-- `Token.solve(name=None)` (lines 41-71), translated branch by branch; the
final `.ok Option.none` is the implicit `return None` when no guard matches. -/
def Token.solve (t : Token) (name : Option PyStr) : SolveRes :=
  if t.requiredB && truthy name then SolveRes.ok name
  else if t.requiredB && name.isNone then SolveRes.err (TErr.requiredMissing t.name)
  else if !t.requiredB && truthy name then
    (match name with
     | some s =>
       if s ∈ t.options.map Prod.fst then SolveRes.ok (dlookup t.options s)
       else SolveRes.err (TErr.notFound s t.name (t.options.map Prod.fst))
     | Option.none => SolveRes.ok Option.none)
  else if !t.requiredB && !truthy name then SolveRes.ok t.defaultVal
  else SolveRes.ok Option.none

/-- The reverse-lookup loop of `Token.parse` (lines 82-86). -/
def parseLoop : List (PyStr × PyStr) → PyStr → PyStr
  | [], value => value
  | (k, v) :: rest, value => if v = value then k else parseLoop rest value

/-- `Token.parse(value)` (lines 73-86): first key whose abbreviation matches,
else the value itself. -/
def Token.parse (t : Token) (value : PyStr) : PyStr :=
  if 1 ≤ t.options.length then parseLoop t.options value else value

/-- The refined `TokenNumber`: its `_options` dict always holds exactly the
keys `prefix`, `suffix` and `padding`, modelled as three fields (`pfx` stands
for the `prefix` entry). -/
structure TokenNumber where
  name : PyStr
  pfx : PyStr
  suffix : PyStr
  padding : Nat
deriving DecidableEq

/-- `TokenNumber(name)` constructor: prefix `""`, suffix `""`, padding `3`. -/
def TokenNumber.init (name : PyStr) : TokenNumber :=
  { name := name, pfx := [], suffix := [], padding := 3 }

/-- `TokenNumber.solve(number)` (lines 139-150):
`prefix + str(number).zfill(padding) + suffix`. -/
def TokenNumber.solve (t : TokenNumber) (number : Nat) : PyStr :=
  t.pfx ++ zfill (natToStr number) t.padding ++ t.suffix

/-- Models `type(p) is not str` for an argument that is a Python `str`:
always `False`. -/
def pyTypeIsNotStr (_ : PyStr) : Bool := false

/-- The `TokenNumber.prefix` setter (lines 219-222): guarded by
`type(p) is not str and not p.isdigit()`. -/
def TokenNumber.setPfx (t : TokenNumber) (p : PyStr) : TokenNumber :=
  if pyTypeIsNotStr p && !pyIsDigitStr p then { t with pfx := p } else t

/-- The `TokenNumber.suffix` setter (lines 228-231), same guard. -/
def TokenNumber.setSuffix (t : TokenNumber) (s : PyStr) : TokenNumber :=
  if pyTypeIsNotStr s && !pyIsDigitStr s then { t with suffix := s } else t

/-- The `TokenNumber.padding` setter (lines 209-213): coerces values `≤ 0`
to `1`. -/
def TokenNumber.setPadding (t : TokenNumber) (p : Int) : TokenNumber :=
  if p ≤ 0 then { t with padding := 1 } else { t with padding := p.toNat }

/-- `add_token_number(name, prefix=str(), suffix=str(), padding=3)`
(lines 262-286): builds the token and runs the three setters.  The resulting
token is also stored in the module-level `_tokens` dict. -/
def add_token_number (name p s : PyStr) (padding : Int) : TokenNumber :=
  ((TokenNumber.init name).setPfx p |>.setSuffix s).setPadding padding

end Tok

namespace Nm

/-! Embedding of `src/naming/naming.py`. -/

/-- A Python value flowing through `solve` / `parse`: a string, a non-negative
integer, or `None`. -/
inductive PVal where
  | s (v : PyStr)
  | i (n : Nat)
  | nullv
deriving DecidableEq

/-- Model of Python `str(v)` as used by `str.format` and `TokenNumber.solve`. -/
def pyStrOf : PVal → PyStr
  | PVal.s v => v
  | PVal.i n => natToStr n
  | PVal.nullv => "None".toList

/-- Exceptions that the naming-module code can raise. -/
inductive PyErr where
  | keyError
  | indexError
  | valueError
  | attributeError
deriving DecidableEq

/-- Result of a naming-module operation: a value or a raised exception. -/
inductive NRes (α : Type) where
  | ok (a : α)
  | exn (e : PyErr)
deriving DecidableEq

/-- The `naming.py` `Token` class (lines 43-93). -/
structure Token where
  name : PyStr
  dflt : Option PyStr
  options : List (PyStr × PyStr)
deriving DecidableEq

/-- The `naming.py` `Token.default` getter (lines 77-81): cached `_default`,
else the first option value when options exist, else `None`; the memoization
does not change the returned value. -/
def Token.defaultVal (t : Token) : Option PyStr :=
  match t.dflt, t.options with
  | Option.none, (_, v) :: _ => some v
  | d, _ => d

/-- `Token.required` (lines 65-67): `default is None`. -/
def Token.requiredB (t : Token) : Bool :=
  t.defaultVal.isNone

/-- `Token.solve(name=None)` (lines 53-57): the default when `name is None`,
else `options.get(name)`.  A non-string argument never matches the string keys
of `_options`. -/
def Token.solve (t : Token) (name : Option PVal) : Option PyStr :=
  match name with
  | Option.none => t.defaultVal
  | some (PVal.s k) => dlookup t.options k
  | some _ => Option.none

/-- The reverse-lookup loop of the `naming.py` `Token.parse` (lines 59-63):
first key whose value matches, else the implicit `None`. -/
def parseLoop : List (PyStr × PyStr) → PyStr → Option PyStr
  | [], _ => Option.none
  | (k, v) :: rest, value => if v = value then some k else parseLoop rest value

/-- `Token.parse(value)` of `naming.py`. -/
def Token.parse (t : Token) (value : PyStr) : Option PyStr :=
  parseLoop t.options value

/-- The `naming.py` `TokenNumber` (lines 96-175).  `add_token_number` stores
exactly the keys `prefix`, `padding`, `suffix` in `_options`; they are
modelled as fields (`pfx` stands for the `prefix` entry).  `padding` is stored
raw by `add_option`, without the setter coercion. -/
structure TokenNumber where
  name : PyStr
  pfx : PyStr
  suffix : PyStr
  padding : Nat
deriving DecidableEq

/-- `TokenNumber.solve(number)` (lines 101-105). -/
def TokenNumber.solve (t : TokenNumber) (number : PVal) : PyStr :=
  t.pfx ++ zfill (pyStrOf number) t.padding ++ t.suffix

/-- A registry entry of the `_tokens` dict: a plain `Token` or a
`TokenNumber` (`isinstance` dispatch). -/
inductive TokObj where
  | plain (t : Token)
  | num (t : TokenNumber)
deriving DecidableEq

/-- `token.required` through the class hierarchy: `TokenNumber.required` is
the constant `True` (lines 169-171). -/
def TokObj.requiredB : TokObj → Bool
  | TokObj.plain t => t.requiredB
  | TokObj.num _ => true

/-- `token.is_number` (lines 91-93 and 173-175). -/
def TokObj.isNumber : TokObj → Bool
  | TokObj.plain _ => false
  | TokObj.num _ => true

/-- `token.parse(name_part)` with virtual dispatch; the `TokenNumber`
branches convert the shared scan result: an `int` return, the implicit `None`,
or a raised `ValueError` from `int()`. -/
def TokObj.parse : TokObj → PyStr → NRes PVal
  | TokObj.plain t, part =>
    NRes.ok (match t.parse part with
             | some k => PVal.s k
             | Option.none => PVal.nullv)
  | TokObj.num _, part =>
    match tokenNumberParse part with
    | ParseRes.val n => NRes.ok (PVal.i n)
    | ParseRes.noneV => NRes.ok PVal.nullv
    | ParseRes.err => NRes.exn PyErr.valueError

/-- The `Rule` class (lines 178-223): a name and the ordered field list. -/
structure Rule where
  name : PyStr
  fields : List PyStr
deriving DecidableEq

/-- The token registry `_tokens`. -/
abbrev TokenReg := List (PyStr × TokObj)

/-- Splitting on every underscore, keeping empty parts: Python
`name.split('_')`. -/
def splitUS : PyStr → List PyStr
  | [] => [[]]
  | c :: rest =>
    if c = '_' then [] :: splitUS rest
    else
      match splitUS rest with
      | h :: t => (c :: h) :: t
      | [] => [[c]]

/-- Python `'_'.join`, the effect of `pattern.format` on the derived pattern
`"{f1}_{f2}_..."`. -/
def joinUS (parts : List PyStr) : PyStr :=
  List.intercalate ['_'] parts

/-- The placeholder lookups of `self._pattern.format(**values)`: each field is
looked up in `values` (raising `KeyError` when absent) and stringified. -/
def formatVals (values : List (PyStr × PVal)) : List PyStr → NRes (List PyStr)
  | [] => NRes.ok []
  | f :: rest =>
    match dlookup values f with
    | Option.none => NRes.exn PyErr.keyError
    | some v =>
      match formatVals values rest with
      | NRes.ok l => NRes.ok (pyStrOf v :: l)
      | NRes.exn e => NRes.exn e

/-- `Rule.solve(**values)` (lines 189-191). -/
def Rule.solve (r : Rule) (values : List (PyStr × PVal)) : NRes PyStr :=
  match formatVals values r.fields with
  | NRes.ok parts => NRes.ok (joinUS parts)
  | NRes.exn e => NRes.exn e

/-- The loop of `Rule.parse` (lines 193-207): positional correspondence of
underscore-separated parts with fields, dispatching per token. -/
def parseFields (tokens : TokenReg) (parts : List PyStr) :
    List PyStr → Nat → NRes (List (PyStr × PVal))
  | [], _ => NRes.ok []
  | f :: rest, i =>
    match parts.get? i with
    | Option.none => NRes.exn PyErr.indexError
    | some part =>
      match dlookup tokens f with
      | Option.none => NRes.exn PyErr.keyError
      | some tk =>
        let hv : NRes PVal :=
          if tk.requiredB then
            (if tk.isNumber then tk.parse part else NRes.ok (PVal.s part))
          else tk.parse part
        match hv with
        | NRes.exn e => NRes.exn e
        | NRes.ok v =>
          match parseFields tokens parts rest (i + 1) with
          | NRes.ok l => NRes.ok ((f, v) :: l)
          | NRes.exn e => NRes.exn e

/-- `Rule.parse(name)`. -/
def Rule.parse (tokens : TokenReg) (r : Rule) (nm : PyStr) :
    NRes (List (PyStr × PVal)) :=
  parseFields tokens (splitUS nm) r.fields 0

/-- A value of the `_rules` dict: the `'_active'` key holds a rule name or
`None`, the other keys hold `Rule` objects; `add_rule('_active', ...)` can
also make `'_active'` hold a `Rule`. -/
inductive RVal where
  | strv (s : PyStr)
  | rl (r : Rule)
  | nullv
deriving DecidableEq

/-- The rule registry `_rules`. -/
abbrev RuleReg := List (PyStr × RVal)

/-- The reserved key under which the active-rule pointer is stored. -/
def activeKey : PyStr := "_active".toList

/-- The initial `_rules = {'_active': None}` (line 16). -/
def initialRuleRegistry : RuleReg := [(activeKey, RVal.nullv)]

/-- `has_rule(name)` (lines 241-242). -/
def has_rule (reg : RuleReg) (name : PyStr) : Bool :=
  (dlookup reg name).isSome

/-- `get_active_rule()` (lines 251-253): `_rules['_active']` raises `KeyError`
when the key is missing; `_rules.get(name)` yields `None` when the stored
pointer is `None` or a non-string object (neither can be a key of the
string-keyed dict). -/
def get_active_rule (reg : RuleReg) : NRes (Option RVal) :=
  match dlookup reg activeKey with
  | Option.none => NRes.exn PyErr.keyError
  | some (RVal.strv s) => NRes.ok (dlookup reg s)
  | some RVal.nullv => NRes.ok Option.none
  | some (RVal.rl _) => NRes.ok Option.none

/-- `set_active_rule(name)` (lines 256-260): returns whether it succeeded,
with the updated registry. -/
def set_active_rule (reg : RuleReg) (name : PyStr) : Bool × RuleReg :=
  if has_rule reg name then (true, dinsert reg activeKey (RVal.strv name))
  else (false, reg)

/-- `add_rule(name, *fields)` (lines 226-231): stores the rule, then activates
it when no rule is currently active.  The mutation survives even when the
`get_active_rule` call raises, so the new registry is returned alongside the
call outcome. -/
def add_rule (reg : RuleReg) (name : PyStr) (fields : List PyStr) :
    RuleReg × NRes Rule :=
  match get_active_rule (dinsert reg name
      (RVal.rl { name := name, fields := fields })) with
  | NRes.exn e =>
    (dinsert reg name (RVal.rl { name := name, fields := fields }), NRes.exn e)
  | NRes.ok Option.none =>
    ((set_active_rule
        (dinsert reg name (RVal.rl { name := name, fields := fields }))
        name).2,
      NRes.ok { name := name, fields := fields })
  | NRes.ok (some _) =>
    (dinsert reg name (RVal.rl { name := name, fields := fields }),
      NRes.ok { name := name, fields := fields })

/-- `remove_rule(name)` (lines 234-238). -/
def remove_rule (reg : RuleReg) (name : PyStr) : Bool × RuleReg :=
  if has_rule reg name then (true, derase reg name) else (false, reg)

/-- `reset_rules()` (lines 245-248). -/
def reset_rules : RuleReg := [(activeKey, RVal.nullv)]

/-- `kwargs.get(f)`: a stored Python `None` behaves like an absent key for the
`is not None` checks and for the optional-token `solve` call. -/
def kwget (kwargs : List (PyStr × PVal)) (f : PyStr) : Option PVal :=
  match dlookup kwargs f with
  | some PVal.nullv => Option.none
  | r => r

/-- The field loop of the module-level `solve` (lines 359-381), threading the
positional-argument index `i`. -/
def solveFields (tokens : TokenReg) (args : List PVal)
    (kwargs : List (PyStr × PVal)) :
    List PyStr → Nat → NRes (List (PyStr × PVal))
  | [], _ => NRes.ok []
  | f :: rest, i =>
    match dlookup tokens f with
    | Option.none => NRes.exn PyErr.keyError
    | some tk =>
      let step : NRes (PVal × Nat) :=
        match tk with
        | TokObj.num tn =>
          (match kwget kwargs f with
           | some v => NRes.ok (PVal.s (tn.solve v), i)
           | Option.none =>
             match args.get? i with
             | Option.none => NRes.exn PyErr.indexError
             | some a => NRes.ok (PVal.s (tn.solve a), i + 1))
        | TokObj.plain t =>
          if t.requiredB then
            (match kwget kwargs f with
             | some v => NRes.ok (v, i)
             | Option.none =>
               match args.get? i with
               | Option.none => NRes.exn PyErr.indexError
               | some a => NRes.ok (a, i + 1))
          else
            NRes.ok
              ((match t.solve (kwget kwargs f) with
                | some v => PVal.s v
                | Option.none => PVal.nullv), i)
      match step with
      | NRes.exn e => NRes.exn e
      | NRes.ok (v, i2) =>
        match solveFields tokens args kwargs rest i2 with
        | NRes.ok l => NRes.ok ((f, v) :: l)
        | NRes.exn e => NRes.exn e

/-- The module-level `solve(*args, **kwargs)` (lines 359-381) against a given
rule registry and token registry. -/
def solve (rules : RuleReg) (tokens : TokenReg) (args : List PVal)
    (kwargs : List (PyStr × PVal)) : NRes PyStr :=
  match get_active_rule rules with
  | NRes.ok (some (RVal.rl r)) =>
    (match solveFields tokens args kwargs r.fields 0 with
     | NRes.ok values => r.solve values
     | NRes.exn e => NRes.exn e)
  | NRes.ok _ => NRes.exn PyErr.attributeError
  | NRes.exn e => NRes.exn e

/-- The module-level `parse(name)` (lines 354-356). -/
def parse (rules : RuleReg) (tokens : TokenReg) (nm : PyStr) :
    NRes (List (PyStr × PVal)) :=
  match get_active_rule rules with
  | NRes.ok (some (RVal.rl r)) => Rule.parse tokens r nm
  | NRes.ok _ => NRes.exn PyErr.attributeError
  | NRes.exn e => NRes.exn e

/-- `add_token(name, **kwargs)` (lines 289-297): options plus an optional
unconditional default assignment (the `naming.py` default setter accepts any
value). -/
def add_token (tokens : TokenReg) (name : PyStr)
    (opts : List (PyStr × PyStr)) (dflt : Option PyStr) : TokenReg :=
  dinsert tokens name
    (TokObj.plain { name := name, dflt := dflt, options := opts })

/-- `add_token_number(name, prefix='', padding=3, suffix='')` (lines 345-351):
the three values are stored raw via `add_option`. -/
def add_token_number (tokens : TokenReg) (name p : PyStr) (padding : Nat)
    (s : PyStr) : TokenReg :=
  dinsert tokens name
    (TokObj.num { name := name, pfx := p, suffix := s, padding := padding })

end Nm

/-! Claim C1: the concrete solve/parse round trip through the active rule. -/

/-- Token registry of the C1 scenario: required raw tokens `category` and
`name`, numeric token `version` with prefix `v` and padding `3`. -/
def c1Tokens : Nm.TokenReg :=
  Nm.add_token_number
    (Nm.add_token (Nm.add_token [] "category".toList [] Option.none)
      "name".toList [] Option.none)
    "version".toList "v".toList 3 []

/-- Rule registry of the C1 scenario: one rule over the three fields, added to
the fresh registry (and hence auto-activated). -/
def c1Rules : Nm.RuleReg :=
  (Nm.add_rule Nm.initialRuleRegistry "filename".toList
    ["category".toList, "name".toList, "version".toList]).1

/-- The keyword arguments `category="char", name="hero", version=1`. -/
def c1Kwargs : List (PyStr × Nm.PVal) :=
  [("category".toList, Nm.PVal.s "char".toList),
   ("name".toList, Nm.PVal.s "hero".toList),
   ("version".toList, Nm.PVal.i 1)]

/-- Claim C1 (confirmed): with the rule `["category","name","version"]` active,
`category`/`name` required raw tokens and `version` a TokenNumber with prefix
`v` and padding 3, `solve(category="char", name="hero", version=1)` builds
`char_hero_v001` and `parse` of that string returns exactly the mapping
`{"category": "char", "name": "hero", "version": 1}`. -/
theorem c1_solve_parse_round_trip :
    Nm.solve c1Rules c1Tokens [] c1Kwargs = Nm.NRes.ok "char_hero_v001".toList ∧
    Nm.parse c1Rules c1Tokens "char_hero_v001".toList = Nm.NRes.ok c1Kwargs := by
  constructor <;> rfl

/-! Claims C3, C4, C5, C8, C9: the refined Token / TokenNumber of tokens.py. -/

/-- Specification-side reverse lookup: the first option key whose abbreviation
equals the value. -/
def firstKeyFor (opts : List (PyStr × PyStr)) (value : PyStr) : Option PyStr :=
  (opts.find? (fun kv => decide (kv.2 = value))).map Prod.fst

lemma parseLoop_eq (opts : List (PyStr × PyStr)) (value : PyStr) :
    Tok.parseLoop opts value = (firstKeyFor opts value).getD value := by
  induction opts with
  | nil => rfl
  | cons kv rest ih =>
    obtain ⟨k, v⟩ := kv
    by_cases h : v = value
    · simp [Tok.parseLoop, firstKeyFor, List.find?, h]
    · simp only [Tok.parseLoop, if_neg h, ih, firstKeyFor, List.find?,
        decide_eq_true_eq]
      simp [h]

/-- Claim C4 (confirmed): `Token.parse` returns the first full-name key whose
abbreviation equals the value, and the value itself unchanged when no
abbreviation matches (pass-through, no error, no None). -/
theorem c4_parse_first_key_or_value (t : Tok.Token) (value : PyStr) :
    t.parse value = (firstKeyFor t.options value).getD value := by
  unfold Tok.Token.parse
  cases h : t.options with
  | nil => simp [h, firstKeyFor, List.find?]
  | cons kv rest => simp [h, parseLoop_eq]

/-- A token with one option, used for the C5 counterexample and witness. -/
def c5Token : Tok.Token :=
  { name := "side".toList, dflt := Option.none,
    options := [("left".toList, "L".toList)] }

/-- Claim C5 counterexample: assigning the abbreviation `L` — which is NOT a
key of the options — via the default setter does not leave the default unset;
it stores `L`.  The setter checks membership among option values, not keys. -/
theorem c5_counterexample :
    (c5Token.setDefault "L".toList).dflt = some "L".toList ∧
    "L".toList ∉ c5Token.options.map Prod.fst := by
  exact ⟨rfl, by decide⟩

/-- Claim C5 as amended: whenever the default is set by the setter or computed
by the getter, the resulting default names an existing abbreviation (an option
VALUE, not a key); an assignment of a value that is not an existing
abbreviation leaves the stored default unchanged. -/
theorem c5_default_is_abbreviation :
    (∀ (t : Tok.Token) (d : PyStr),
       (t.setDefault d).dflt = t.dflt ∨
       ((t.setDefault d).dflt = some d ∧ d ∈ t.options.map Prod.snd)) ∧
    (∀ (t : Tok.Token) (d : PyStr), d ∉ t.options.map Prod.snd →
       (t.setDefault d).dflt = t.dflt) ∧
    (∀ t : Tok.Token, t.dflt = Option.none → t.options ≠ [] →
       ∃ v, t.defaultGet.2 = some v ∧ t.defaultGet.1.dflt = some v ∧
         v ∈ t.options.map Prod.snd) := by
  refine ⟨fun t d => ?_, fun t d hd => ?_, fun t h1 h2 => ?_⟩
  · unfold Tok.Token.setDefault
    by_cases hl : 1 ≤ t.options.length
    · by_cases hm : d ∈ t.options.map Prod.snd
      · exact Or.inr ⟨by simp [hl, hm], hm⟩
      · exact Or.inl (by simp [hl, hm])
    · exact Or.inl (by simp [hl])
  · unfold Tok.Token.setDefault
    by_cases hl : 1 ≤ t.options.length <;> simp [hl, hd]
  · cases ho : t.options with
    | nil => exact absurd ho h2
    | cons kv rest =>
      refine ⟨kv.2, ?_, ?_, ?_⟩
      · simp [Tok.Token.defaultGet, h1, ho]
      · simp [Tok.Token.defaultGet, h1, ho]
      · simp [ho]

/-- Witness for the amended C5: the non-abbreviation `x` is rejected, and the
lazy getter on the one-option token caches and returns the abbreviation `L`. -/
theorem c5_default_is_abbreviation_witness :
    (c5Token.setDefault "x".toList).dflt = Option.none ∧
    (∃ v, c5Token.defaultGet.2 = some v ∧ c5Token.defaultGet.1.dflt = some v ∧
      v ∈ c5Token.options.map Prod.snd) :=
  ⟨(c5_default_is_abbreviation.2.1 c5Token "x".toList (by decide)).trans rfl,
   c5_default_is_abbreviation.2.2 c5Token rfl (by decide)⟩

/-- A non-required token for the C3 counterexample and witness. -/
def c3Token : Tok.Token :=
  { name := "side".toList, dflt := Option.none,
    options := [("left".toList, "L".toList)] }

/-- A required token (no default, no options) for the C3 witness. -/
def c3ReqToken : Tok.Token :=
  { name := "category".toList, dflt := Option.none, options := [] }

/-- Claim C3 counterexample: for a non-required token, the supplied name `""`
is not a key of the options, yet `solve` raises nothing — the empty string is
falsy, so the branch returns the default abbreviation instead. -/
theorem c3_counterexample :
    c3Token.requiredB = false ∧
    ([] : PyStr) ∉ c3Token.options.map Prod.fst ∧
    c3Token.solve (some []) = Tok.SolveRes.ok (some "L".toList) :=
  ⟨rfl, by decide, rfl⟩

/-- Claim C3 as amended: a required token raises the usage error when no name
is supplied, and a non-required token raises the lookup error carrying the
enumeration of all option keys when the supplied name is NON-EMPTY and not a
key of its options. -/
theorem c3_solve_errors :
    (∀ t : Tok.Token, t.requiredB = true →
       t.solve Option.none = Tok.SolveRes.err (Tok.TErr.requiredMissing t.name)) ∧
    (∀ (t : Tok.Token) (nm : PyStr), t.requiredB = false → nm ≠ [] →
       nm ∉ t.options.map Prod.fst →
       t.solve (some nm) =
         Tok.SolveRes.err (Tok.TErr.notFound nm t.name (t.options.map Prod.fst))) := by
  constructor
  · intro t h
    simp [Tok.Token.solve, h, truthy]
  · intro t nm h hne hk
    cases nm with
    | nil => exact absurd rfl hne
    | cons c cs => simp [Tok.Token.solve, h, truthy, hk]

/-- Witness for the amended C3 at concrete tokens. -/
theorem c3_solve_errors_witness :
    c3ReqToken.solve Option.none =
      Tok.SolveRes.err (Tok.TErr.requiredMissing c3ReqToken.name) ∧
    c3Token.solve (some "up".toList) =
      Tok.SolveRes.err
        (Tok.TErr.notFound "up".toList c3Token.name
          (c3Token.options.map Prod.fst)) :=
  ⟨c3_solve_errors.1 c3ReqToken rfl,
   c3_solve_errors.2 c3Token "up".toList rfl (by decide) (by decide)⟩

/-- Claim C9 (confirmed): for a required token, solving with the empty string
hits no branch guard — the call neither raises nor echoes the input; it falls
through and returns the implicit Python `None`. -/
theorem c9_required_empty_string_returns_none (t : Tok.Token)
    (h1 : t.dflt = Option.none) (h2 : t.options = []) :
    t.solve (some []) = Tok.SolveRes.ok Option.none := by
  simp [Tok.Token.solve, Tok.Token.requiredB, Tok.Token.defaultVal, h1, h2,
    truthy]

/-- Witness for C9 at a concrete required token. -/
theorem c9_required_empty_string_returns_none_witness :
    c3ReqToken.solve (some []) = Tok.SolveRes.ok Option.none :=
  c9_required_empty_string_returns_none c3ReqToken rfl rfl

/-- Claim C8 (confirmed): the guard `type(p) is not str and not p.isdigit()`
is false for every string, so the prefix and suffix setters never assign, and
`add_token_number` yields a token whose prefix and suffix stay the constructor
defaults `""` whatever the arguments were. -/
theorem c8_setters_never_assign :
    (∀ (t : Tok.TokenNumber) (p : PyStr), t.setPfx p = t) ∧
    (∀ (t : Tok.TokenNumber) (s : PyStr), t.setSuffix s = t) ∧
    (∀ (name p s : PyStr) (padding : Int),
       (Tok.add_token_number name p s padding).pfx = [] ∧
       (Tok.add_token_number name p s padding).suffix = []) := by
  refine ⟨fun t p => ?_, fun t s => ?_, fun name p s padding => ?_⟩
  · simp [Tok.TokenNumber.setPfx, Tok.pyTypeIsNotStr]
  · simp [Tok.TokenNumber.setSuffix, Tok.pyTypeIsNotStr]
  · unfold Tok.add_token_number Tok.TokenNumber.setPadding
    simp [Tok.TokenNumber.setPfx, Tok.TokenNumber.setSuffix, Tok.pyTypeIsNotStr,
      Tok.TokenNumber.init]
    split <;> exact ⟨rfl, rfl⟩

/-! Decimal rendering and zero-fill lemmas, shared by C7 and C2. -/

lemma digitChar_isDigit (d : Nat) : (digitChar d).isDigit = true := by
  unfold digitChar
  split <;> decide

lemma digitChar_toNat (d : Nat) (h : d < 10) : (digitChar d).toNat - 48 = d := by
  interval_cases d <;> decide

lemma digitsVal_append_singleton (l : PyStr) (c : Char) :
    digitsVal (l ++ [c]) = 10 * digitsVal l + (c.toNat - 48) := by
  unfold digitsVal
  rw [List.foldl_append]
  rfl

lemma natDigsAux_all_digit (fuel : Nat) :
    ∀ n, ∀ c ∈ natDigsAux fuel n, c.isDigit = true := by
  induction fuel with
  | zero => intro n c hc; simp [natDigsAux] at hc
  | succ fuel ih =>
    intro n c hc
    unfold natDigsAux at hc
    by_cases h : n = 0
    · simp [h] at hc
    · rw [if_neg h] at hc
      rcases List.mem_append.mp hc with h1 | h2
      · exact ih (n / 10) c h1
      · rcases List.mem_singleton.mp h2 with rfl
        exact digitChar_isDigit (n % 10)

lemma digitsVal_natDigsAux (fuel : Nat) :
    ∀ n, n ≤ fuel → digitsVal (natDigsAux fuel n) = n := by
  induction fuel with
  | zero =>
    intro n hn
    interval_cases n
    rfl
  | succ fuel ih =>
    intro n hn
    unfold natDigsAux
    by_cases h : n = 0
    · simp [h, digitsVal]
    · have hlt := Nat.div_lt_self (Nat.pos_of_ne_zero h) (show 1 < 10 by omega)
      rw [if_neg h, digitsVal_append_singleton,
        ih (n / 10) (by omega), digitChar_toNat (n % 10) (Nat.mod_lt n (by omega))]
      omega

lemma digitsVal_natToStr (n : Nat) : digitsVal (natToStr n) = n := by
  unfold natToStr
  by_cases h : n = 0
  · simp [h]; rfl
  · rw [if_neg h]
    exact digitsVal_natDigsAux n n (Nat.le_refl n)

lemma natToStr_ne_nil (n : Nat) : natToStr n ≠ [] := by
  unfold natToStr
  by_cases h : n = 0
  · simp [h]
  · rw [if_neg h]
    cases n with
    | zero => exact absurd rfl h
    | succ m =>
      unfold natDigsAux
      simp

lemma natToStr_all_digit (n : Nat) : ∀ c ∈ natToStr n, c.isDigit = true := by
  unfold natToStr
  by_cases h : n = 0
  · simp [h]
  · rw [if_neg h]
    exact natDigsAux_all_digit n n

lemma zfill_eq (s : PyStr) (w : Nat) :
    zfill s w = List.replicate (w - s.length) '0' ++ s := by
  unfold zfill
  by_cases h : w ≤ s.length
  · simp [h, Nat.sub_eq_zero_of_le h]
  · simp [h]

lemma zfill_ne_nil (s : PyStr) (w : Nat) (h : s ≠ []) : zfill s w ≠ [] := by
  rw [zfill_eq]
  intro hc
  rcases List.append_eq_nil.mp hc with ⟨-, h2⟩
  exact h h2

lemma zfill_all_digit (s : PyStr) (w : Nat)
    (h : ∀ c ∈ s, c.isDigit = true) : ∀ c ∈ zfill s w, c.isDigit = true := by
  rw [zfill_eq]
  intro c hc
  rcases List.mem_append.mp hc with h1 | h2
  · rcases List.eq_of_mem_replicate h1 with rfl
    decide
  · exact h c h2

lemma foldl_zeros (k : Nat) :
    (List.replicate k '0').foldl (fun a c => 10 * a + (c.toNat - 48)) 0 = 0 := by
  induction k with
  | zero => rfl
  | succ k ih => simpa [List.replicate_succ] using ih

lemma digitsVal_zfill (s : PyStr) (w : Nat) :
    digitsVal (zfill s w) = digitsVal s := by
  rw [zfill_eq]
  unfold digitsVal
  rw [List.foldl_append, foldl_zeros]

/-- Claim C7 (confirmed): for every `TokenNumber` and non-negative `n`,
`solve(n)` is exactly `prefix + zeros + digits(n) + suffix`, where the middle
block left-pads the decimal digits of `n` with zeros to length
`max padding (number of digits)` — padding is only a minimum width, and the
digit string (whose value is `n`) is never truncated. -/
theorem c7_solve_zero_pads (t : Tok.TokenNumber) (n : Nat) :
    t.solve n =
      t.pfx ++ (List.replicate (t.padding - (natToStr n).length) '0' ++
        natToStr n) ++ t.suffix ∧
    (List.replicate (t.padding - (natToStr n).length) '0' ++
      natToStr n).length = max t.padding (natToStr n).length ∧
    digitsVal (natToStr n) = n ∧
    ∀ c ∈ natToStr n, c.isDigit = true := by
  refine ⟨?_, ?_, digitsVal_natToStr n, natToStr_all_digit n⟩
  · unfold Tok.TokenNumber.solve
    rw [zfill_eq]
  · rw [List.length_append, List.length_replicate]
    rcases Nat.le_total t.padding (natToStr n).length with h | h
    · rw [Nat.max_eq_right h, Nat.sub_eq_zero_of_le h, Nat.zero_add]
    · rw [Nat.max_eq_left h, Nat.sub_add_cancel h]

/-! Claim C2: `TokenNumber.parse` inverts `TokenNumber.solve`. -/

lemma scanRun_nondigit_append (pre : PyStr)
    (h : ∀ c ∈ pre, c.isDigit = false) :
    ∀ (rest : PyStr) (acc : Nat),
      scanRun (pre ++ rest) acc = scanRun rest (acc + pre.length) := by
  induction pre with
  | nil => intro rest acc; simp
  | cons c l ih =>
    intro rest acc
    have hc : c.isDigit = false := h c (by simp)
    have hl : ∀ x ∈ l, x.isDigit = false := fun x hx => h x (by simp [hx])
    have step : scanRun ((c :: l) ++ rest) acc = scanRun (l ++ rest) (acc + 1) := by
      simp [scanRun, hc]
    rw [step, ih hl rest (acc + 1)]
    have : acc + 1 + l.length = acc + (c :: l).length := by
      simp
      omega
    rw [this]

lemma scanRun_digit_cons (c : Char) (hc : c.isDigit = true) (rest : PyStr)
    (acc : Nat) :
    scanRun (c :: rest) acc = if acc = 0 then Option.none else some acc := by
  simp [scanRun, hc]

lemma scanRun_shape (pre mid suf : PyStr)
    (hpre : ∀ c ∈ pre, c.isDigit = false)
    (hmid_ne : mid ≠ []) (hmid : ∀ c ∈ mid, c.isDigit = true) :
    scanRun (pre ++ mid ++ suf) 0 =
      if pre.length = 0 then Option.none else some pre.length := by
  cases mid with
  | nil => exact absurd rfl hmid_ne
  | cons m ms =>
    have hm : m.isDigit = true := hmid m (by simp)
    rw [List.append_assoc, scanRun_nondigit_append pre hpre, List.cons_append,
      scanRun_digit_cons m hm]
    simp

lemma take_len_append (a b : PyStr) : (a ++ b).take a.length = a := by
  induction a with
  | nil => rfl
  | cons c l ih => simp [ih]

lemma drop_len_append (a b : PyStr) : (a ++ b).drop a.length = b := by
  induction a with
  | nil => rfl
  | cons c l ih => simp [ih]

lemma isEmpty_false_of_ne_nil (s : PyStr) (h : s ≠ []) : s.isEmpty = false := by
  cases s with
  | nil => exact absurd rfl h
  | cons a l => rfl

lemma pyIsDigitStr_true (s : PyStr) (h1 : s ≠ [])
    (h2 : ∀ c ∈ s, c.isDigit = true) : pyIsDigitStr s = true := by
  simp [pyIsDigitStr, isEmpty_false_of_ne_nil s h1, List.all_eq_true.mpr h2]

lemma pyIsDigitStr_false_of_mem (s : PyStr) (c : Char) (hc : c ∈ s)
    (hd : c.isDigit = false) : pyIsDigitStr s = false := by
  have : s.all Char.isDigit = false := by
    cases hall : s.all Char.isDigit
    · rfl
    · exact absurd (List.all_eq_true.mp hall c hc) (by simp [hd])
  simp [pyIsDigitStr, this]

lemma pyInt_all_digit (s : PyStr) (h1 : s ≠ [])
    (h2 : ∀ c ∈ s, c.isDigit = true) :
    pyInt s = ParseRes.val (digitsVal s) := by
  simp [pyInt, pyIsDigitStr_true s h1 h2]

/-- Core inversion: parsing any string of shape
non-digit-prefix ++ digit-block ++ non-digit-suffix recovers the value of the
digit block. -/
lemma tokenNumberParse_pre_pad_suf (pre pad suf : PyStr)
    (hpre : ∀ c ∈ pre, c.isDigit = false)
    (hsuf : ∀ c ∈ suf, c.isDigit = false)
    (hpad_ne : pad ≠ []) (hpad : ∀ c ∈ pad, c.isDigit = true) :
    tokenNumberParse (pre ++ pad ++ suf) = ParseRes.val (digitsVal pad) := by
  have hrev : (pre ++ pad ++ suf).reverse =
      suf.reverse ++ pad.reverse ++ pre.reverse := by
    simp
  have hP : scanRun (pre ++ pad ++ suf) 0 =
      if pre.length = 0 then Option.none else some pre.length :=
    scanRun_shape pre pad suf hpre hpad_ne hpad
  have hS : scanRun (pre ++ pad ++ suf).reverse 0 =
      if suf.length = 0 then Option.none else some suf.length := by
    rw [hrev]
    have h1 : ∀ c ∈ suf.reverse, c.isDigit = false :=
      fun c hc => hsuf c (List.mem_reverse.mp hc)
    have h2 : pad.reverse ≠ [] := by simpa using hpad_ne
    have h3 : ∀ c ∈ pad.reverse, c.isDigit = true :=
      fun c hc => hpad c (List.mem_reverse.mp hc)
    rw [scanRun_shape suf.reverse pad.reverse pre.reverse h1 h2 h3]
    simp
  by_cases hpe : pre = [] <;> by_cases hse : suf = []
  · subst hpe; subst hse
    simp only [List.nil_append, List.append_nil] at *
    simp [tokenNumberParse, pyIsDigitStr_true pad hpad_ne hpad]
  · subst hpe
    simp only [List.nil_append] at *
    obtain ⟨c, cs, rfl⟩ : ∃ c cs, suf = c :: cs := by
      cases suf with
      | nil => exact absurd rfl hse
      | cons c cs => exact ⟨c, cs, rfl⟩
    have hfalse : pyIsDigitStr (pad ++ c :: cs) = false :=
      pyIsDigitStr_false_of_mem _ c (by simp) (hsuf c (by simp))
    have hslen : (c :: cs).length ≠ 0 := by simp
    have hP2 : scanRun (pad ++ c :: cs) 0 = Option.none := by
      rw [hP]; rfl
    have hS2 : scanRun (pad ++ c :: cs).reverse 0 = some (c :: cs).length := by
      rw [hS, if_neg hslen]
    have htake : sliceNeg (pad ++ c :: cs) (c :: cs).length = pad := by
      unfold sliceNeg
      rw [if_neg hslen, List.length_append, Nat.add_sub_cancel, take_len_append]
    unfold tokenNumberParse
    rw [hfalse, hP2, hS2]
    show pyInt (sliceNeg (pad ++ c :: cs) (c :: cs).length) =
      ParseRes.val (digitsVal pad)
    rw [htake, pyInt_all_digit pad hpad_ne hpad]
  · subst hse
    simp only [List.append_nil] at *
    obtain ⟨c, cs, rfl⟩ : ∃ c cs, pre = c :: cs := by
      cases pre with
      | nil => exact absurd rfl hpe
      | cons c cs => exact ⟨c, cs, rfl⟩
    have hfalse : pyIsDigitStr ((c :: cs) ++ pad) = false :=
      pyIsDigitStr_false_of_mem _ c (by simp) (hpre c (by simp))
    have hplen : (c :: cs).length ≠ 0 := by simp
    have hP3 : scanRun ((c :: cs) ++ pad) 0 = some (c :: cs).length := by
      rw [hP, if_neg hplen]
    have hS3 : scanRun ((c :: cs) ++ pad).reverse 0 = Option.none := by
      rw [hS]; rfl
    unfold tokenNumberParse
    rw [hfalse, hP3, hS3]
    show pyInt (((c :: cs) ++ pad).drop (c :: cs).length) =
      ParseRes.val (digitsVal pad)
    rw [drop_len_append, pyInt_all_digit pad hpad_ne hpad]
  · obtain ⟨c, cs, rfl⟩ : ∃ c cs, pre = c :: cs := by
      cases pre with
      | nil => exact absurd rfl hpe
      | cons c cs => exact ⟨c, cs, rfl⟩
    obtain ⟨d, ds, rfl⟩ : ∃ d ds, suf = d :: ds := by
      cases suf with
      | nil => exact absurd rfl hse
      | cons d ds => exact ⟨d, ds, rfl⟩
    have hfalse : pyIsDigitStr ((c :: cs) ++ pad ++ d :: ds) = false :=
      pyIsDigitStr_false_of_mem _ c (by simp) (hpre c (by simp))
    have hplen : (c :: cs).length ≠ 0 := by simp
    have hslen : (d :: ds).length ≠ 0 := by simp
    have hP4 : scanRun ((c :: cs) ++ pad ++ d :: ds) 0 = some (c :: cs).length := by
      rw [hP, if_neg hplen]
    have hS4 : scanRun ((c :: cs) ++ pad ++ d :: ds).reverse 0 =
        some (d :: ds).length := by
      rw [hS, if_neg hslen]
    have hmid : sliceMid ((c :: cs) ++ pad ++ d :: ds) (c :: cs).length
        (d :: ds).length = pad := by
      unfold sliceMid
      rw [if_neg hslen]
      have hlen : ((c :: cs) ++ pad ++ d :: ds).length - (d :: ds).length =
          ((c :: cs) ++ pad).length := by
        simp only [List.length_append, List.length_cons]
        omega
      rw [hlen, take_len_append, drop_len_append]
    unfold tokenNumberParse
    rw [hfalse, hP4, hS4]
    show pyInt (sliceMid ((c :: cs) ++ pad ++ d :: ds) (c :: cs).length
      (d :: ds).length) = ParseRes.val (digitsVal pad)
    rw [hmid, pyInt_all_digit pad hpad_ne hpad]

/-- Claim C2 as amended: for every `TokenNumber` whose prefix and suffix
contain no digit characters, `parse` recovers `n` from the string produced by
`solve(n)`, including when prefix or suffix is empty. -/
theorem c2_parse_inverts_solve (t : Tok.TokenNumber) (n : Nat)
    (hp : ∀ c ∈ t.pfx, c.isDigit = false)
    (hs : ∀ c ∈ t.suffix, c.isDigit = false) :
    tokenNumberParse (t.solve n) = ParseRes.val n := by
  have hdef : t.solve n = t.pfx ++ zfill (natToStr n) t.padding ++ t.suffix := rfl
  rw [hdef,
    tokenNumberParse_pre_pad_suf t.pfx (zfill (natToStr n) t.padding) t.suffix
      hp hs (zfill_ne_nil _ _ (natToStr_ne_nil n))
      (zfill_all_digit _ _ (natToStr_all_digit n)),
    digitsVal_zfill, digitsVal_natToStr]

/-- A token whose prefix contains a digit, used for the C2 counterexample. -/
def c2BadToken : Tok.TokenNumber :=
  { name := "version".toList, pfx := "v2".toList, suffix := [], padding := 3 }

/-- Claim C2 counterexample: with the digit-containing prefix `v2`, `solve(1)`
produces `v2001` but `parse` returns `2001`, not `1` — the scan treats the `2`
of the prefix as part of the number. -/
theorem c2_counterexample :
    c2BadToken.solve 1 = "v2001".toList ∧
    tokenNumberParse (c2BadToken.solve 1) = ParseRes.val 2001 ∧
    tokenNumberParse (c2BadToken.solve 1) ≠ ParseRes.val 1 :=
  ⟨rfl, rfl, by decide⟩

/-- The round-trip token of the specification example. -/
def c2Token : Tok.TokenNumber :=
  { name := "version".toList, pfx := "v".toList, suffix := [], padding := 3 }

/-- Witness for the amended C2: `solve(25) = "v025"` and `parse("v025") = 25`. -/
theorem c2_parse_inverts_solve_witness :
    c2Token.solve 25 = "v025".toList ∧
    tokenNumberParse "v025".toList = ParseRes.val 25 :=
  ⟨rfl, c2_parse_inverts_solve c2Token 25 (by decide) (by decide)⟩

/-! Dictionary lemmas for the rule registry (claims C6, C10). -/

lemma dlookup_dinsert_self {α : Type} (l : List (PyStr × α)) (k : PyStr)
    (v : α) : dlookup (dinsert l k v) k = some v := by
  induction l with
  | nil => simp [dinsert, dlookup]
  | cons kv rest ih =>
    obtain ⟨k0, v0⟩ := kv
    by_cases h : k0 = k
    · simp [dinsert, dlookup, h]
    · simp [dinsert, dlookup, h, ih]

lemma dlookup_dinsert_other {α : Type} (l : List (PyStr × α)) (k key : PyStr)
    (v : α) (h : k ≠ key) : dlookup (dinsert l k v) key = dlookup l key := by
  induction l with
  | nil => simp [dinsert, dlookup, h]
  | cons kv rest ih =>
    obtain ⟨k0, v0⟩ := kv
    by_cases h0 : k0 = k
    · subst h0
      simp [dinsert, dlookup, h]
    · by_cases h1 : k0 = key
      · simp [dinsert, dlookup, h0, h1, Ne.symm h]
      · simp [dinsert, dlookup, h0, h1, ih]

lemma dlookup_derase_self {α : Type} (l : List (PyStr × α)) (k : PyStr) :
    dlookup (derase l k) k = Option.none := by
  induction l with
  | nil => rfl
  | cons kv rest ih =>
    obtain ⟨k0, v0⟩ := kv
    by_cases h : k0 = k
    · have hd : derase ((k0, v0) :: rest) k = derase rest k := by
        simp [derase, List.filter_cons, h]
      rw [hd, ih]
    · have hd : derase ((k0, v0) :: rest) k = (k0, v0) :: derase rest k := by
        simp [derase, List.filter_cons, h]
      rw [hd]
      simp [dlookup, h, ih]

lemma dlookup_derase_other {α : Type} (l : List (PyStr × α)) (k key : PyStr)
    (h : k ≠ key) : dlookup (derase l k) key = dlookup l key := by
  induction l with
  | nil => rfl
  | cons kv rest ih =>
    obtain ⟨k0, v0⟩ := kv
    by_cases h0 : k0 = k
    · have hd : derase ((k0, v0) :: rest) k = derase rest k := by
        simp [derase, List.filter_cons, h0]
      have hk0 : k0 ≠ key := by
        rw [h0]
        exact h
      rw [hd, ih]
      simp [dlookup, hk0]
    · have hd : derase ((k0, v0) :: rest) k = (k0, v0) :: derase rest k := by
        simp [derase, List.filter_cons, h0]
      rw [hd]
      by_cases h1 : k0 = key
      · simp [dlookup, h1]
      · simp [dlookup, h1, ih]

/-! Claim C6: auto-activation by add_rule and the dangling active pointer. -/

lemma add_rule_fst_of_none (reg : Nm.RuleReg) (name : PyStr)
    (fields : List PyStr)
    (h : Nm.get_active_rule (dinsert reg name
        (Nm.RVal.rl { name := name, fields := fields })) =
      Nm.NRes.ok Option.none) :
    (Nm.add_rule reg name fields).1 =
      (Nm.set_active_rule
        (dinsert reg name (Nm.RVal.rl { name := name, fields := fields }))
        name).2 := by
  unfold Nm.add_rule
  rw [h]

lemma add_rule_fst_of_some (reg : Nm.RuleReg) (name : PyStr)
    (fields : List PyStr) (v : Nm.RVal)
    (h : Nm.get_active_rule (dinsert reg name
        (Nm.RVal.rl { name := name, fields := fields })) =
      Nm.NRes.ok (some v)) :
    (Nm.add_rule reg name fields).1 =
      dinsert reg name (Nm.RVal.rl { name := name, fields := fields }) := by
  unfold Nm.add_rule
  rw [h]

lemma get_active_after_set (reg1 : Nm.RuleReg) (name : PyStr) (r : Nm.RVal)
    (hname : name ≠ Nm.activeKey) (hlook : dlookup reg1 name = some r) :
    Nm.get_active_rule (Nm.set_active_rule reg1 name).2 =
      Nm.NRes.ok (some r) := by
  have hhas : Nm.has_rule reg1 name = true := by
    unfold Nm.has_rule
    rw [hlook]
    rfl
  simp only [Nm.set_active_rule, hhas, if_true]
  unfold Nm.get_active_rule
  rw [dlookup_dinsert_self]
  show Nm.NRes.ok (dlookup (dinsert reg1 Nm.activeKey (Nm.RVal.strv name)) name) = _
  rw [dlookup_dinsert_other reg1 Nm.activeKey name _ (Ne.symm hname), hlook]

/-- Claim C6 counterexample: on the fresh registry (which has no active rule)
`add_rule` with the reserved name `_active` does NOT leave that rule active —
`get_active_rule` afterwards returns the stored string `"_active"`, not the
added `Rule` object. -/
theorem c6_counterexample :
    Nm.get_active_rule Nm.initialRuleRegistry = Nm.NRes.ok Option.none ∧
    Nm.get_active_rule
        (Nm.add_rule Nm.initialRuleRegistry Nm.activeKey ["shot".toList]).1 =
      Nm.NRes.ok (some (Nm.RVal.strv Nm.activeKey)) ∧
    Nm.get_active_rule
        (Nm.add_rule Nm.initialRuleRegistry Nm.activeKey ["shot".toList]).1 ≠
      Nm.NRes.ok (some (Nm.RVal.rl
        { name := Nm.activeKey, fields := ["shot".toList] })) :=
  ⟨rfl, rfl, by decide⟩

/-- Claim C6 as amended: for every rule name other than the reserved key
`_active`, adding a rule to a registry with no active rule auto-activates it
(`get_active_rule` then returns that rule); and removing the rule the active
pointer designates leaves the pointer dangling, after which `get_active_rule`
returns `None`. -/
theorem c6_add_activates_remove_dangles :
    (∀ (reg : Nm.RuleReg) (name : PyStr) (fields : List PyStr),
       name ≠ Nm.activeKey →
       Nm.get_active_rule reg = Nm.NRes.ok Option.none →
       Nm.get_active_rule (Nm.add_rule reg name fields).1 =
         Nm.NRes.ok (some (Nm.RVal.rl { name := name, fields := fields }))) ∧
    (∀ (reg : Nm.RuleReg) (a : PyStr) (r : Nm.Rule),
       dlookup reg Nm.activeKey = some (Nm.RVal.strv a) →
       dlookup reg a = some (Nm.RVal.rl r) →
       Nm.get_active_rule (Nm.remove_rule reg a).2 =
         Nm.NRes.ok Option.none) := by
  constructor
  · intro reg name fields hname hact
    have hl1 : dlookup (dinsert reg name
        (Nm.RVal.rl { name := name, fields := fields })) Nm.activeKey =
        dlookup reg Nm.activeKey :=
      dlookup_dinsert_other reg name Nm.activeKey _ hname
    have hself : dlookup (dinsert reg name
        (Nm.RVal.rl { name := name, fields := fields })) name =
        some (Nm.RVal.rl { name := name, fields := fields }) :=
      dlookup_dinsert_self reg name _
    unfold Nm.get_active_rule at hact
    cases hv : dlookup reg Nm.activeKey with
    | none =>
      rw [hv] at hact
      exact absurd hact (by simp)
    | some v =>
      rw [hv] at hact
      cases v with
      | nullv =>
        have hga1 : Nm.get_active_rule (dinsert reg name
            (Nm.RVal.rl { name := name, fields := fields })) =
            Nm.NRes.ok Option.none := by
          unfold Nm.get_active_rule
          rw [hl1, hv]
        rw [add_rule_fst_of_none reg name fields hga1]
        exact get_active_after_set _ name _ hname hself
      | rl r0 =>
        have hga1 : Nm.get_active_rule (dinsert reg name
            (Nm.RVal.rl { name := name, fields := fields })) =
            Nm.NRes.ok Option.none := by
          unfold Nm.get_active_rule
          rw [hl1, hv]
        rw [add_rule_fst_of_none reg name fields hga1]
        exact get_active_after_set _ name _ hname hself
      | strv s =>
        have hs : dlookup reg s = Option.none := by
          simpa using hact
        by_cases hsn : s = name
        · subst hsn
          have hga1 : Nm.get_active_rule (dinsert reg s
              (Nm.RVal.rl { name := s, fields := fields })) =
              Nm.NRes.ok (some (Nm.RVal.rl { name := s, fields := fields })) := by
            unfold Nm.get_active_rule
            rw [hl1, hv]
            show Nm.NRes.ok (dlookup (dinsert reg s
              (Nm.RVal.rl { name := s, fields := fields })) s) = _
            rw [hself]
          rw [add_rule_fst_of_some reg s fields _ hga1]
          exact hga1
        · have hga1 : Nm.get_active_rule (dinsert reg name
              (Nm.RVal.rl { name := name, fields := fields })) =
              Nm.NRes.ok Option.none := by
            unfold Nm.get_active_rule
            rw [hl1, hv]
            show Nm.NRes.ok (dlookup (dinsert reg name
              (Nm.RVal.rl { name := name, fields := fields })) s) = _
            rw [dlookup_dinsert_other reg name s _ (fun hEq => hsn hEq.symm), hs]
          rw [add_rule_fst_of_none reg name fields hga1]
          exact get_active_after_set _ name _ hname hself
  · intro reg a r h1 h2
    have hne : a ≠ Nm.activeKey := by
      intro hEq
      subst hEq
      rw [h1] at h2
      simp at h2
    have hhas : Nm.has_rule reg a = true := by
      unfold Nm.has_rule
      rw [h2]
      rfl
    simp only [Nm.remove_rule, hhas, if_true]
    unfold Nm.get_active_rule
    rw [dlookup_derase_other reg a Nm.activeKey hne, h1]
    show Nm.NRes.ok (dlookup (derase reg a) a) = _
    rw [dlookup_derase_self]

/-- Witness for the amended C6: adding `shot` to the fresh registry activates
it, and removing it afterwards makes `get_active_rule` return `None`. -/
theorem c6_add_activates_remove_dangles_witness :
    Nm.get_active_rule
        (Nm.add_rule Nm.initialRuleRegistry "shot".toList ["sq".toList]).1 =
      Nm.NRes.ok (some (Nm.RVal.rl
        { name := "shot".toList, fields := ["sq".toList] })) ∧
    Nm.get_active_rule
        (Nm.remove_rule
          (Nm.add_rule Nm.initialRuleRegistry "shot".toList ["sq".toList]).1
          "shot".toList).2 =
      Nm.NRes.ok Option.none :=
  ⟨c6_add_activates_remove_dangles.1 Nm.initialRuleRegistry "shot".toList
      ["sq".toList] (by decide) rfl,
   c6_add_activates_remove_dangles.2
      (Nm.add_rule Nm.initialRuleRegistry "shot".toList ["sq".toList]).1
      "shot".toList { name := "shot".toList, fields := ["sq".toList] }
      (by decide) (by decide)⟩

/-! Claim C10: presence of the reserved `_active` key across registry
states. -/

/-- Registry states reachable through the in-memory rule-registry operations
of `naming.py` (loading a rule file acts as `_rules[rule.name] = rule`). -/
inductive ReachableRules : Nm.RuleReg → Prop where
  | init : ReachableRules Nm.initialRuleRegistry
  | add (reg : Nm.RuleReg) (name : PyStr) (fields : List PyStr) :
      ReachableRules reg → ReachableRules (Nm.add_rule reg name fields).1
  | remove (reg : Nm.RuleReg) (name : PyStr) :
      ReachableRules reg → ReachableRules (Nm.remove_rule reg name).2
  | reset (reg : Nm.RuleReg) : ReachableRules reg → ReachableRules Nm.reset_rules
  | setActive (reg : Nm.RuleReg) (name : PyStr) :
      ReachableRules reg → ReachableRules (Nm.set_active_rule reg name).2
  | load (reg : Nm.RuleReg) (name : PyStr) (fields : List PyStr) :
      ReachableRules reg →
      ReachableRules (dinsert reg name
        (Nm.RVal.rl { name := name, fields := fields }))

/-- Registry states reachable when `remove_rule` is never called with the
reserved name `_active` itself. -/
inductive SafeReachableRules : Nm.RuleReg → Prop where
  | init : SafeReachableRules Nm.initialRuleRegistry
  | add (reg : Nm.RuleReg) (name : PyStr) (fields : List PyStr) :
      SafeReachableRules reg →
      SafeReachableRules (Nm.add_rule reg name fields).1
  | remove (reg : Nm.RuleReg) (name : PyStr) (h : name ≠ Nm.activeKey) :
      SafeReachableRules reg →
      SafeReachableRules (Nm.remove_rule reg name).2
  | reset (reg : Nm.RuleReg) :
      SafeReachableRules reg → SafeReachableRules Nm.reset_rules
  | setActive (reg : Nm.RuleReg) (name : PyStr) :
      SafeReachableRules reg →
      SafeReachableRules (Nm.set_active_rule reg name).2
  | load (reg : Nm.RuleReg) (name : PyStr) (fields : List PyStr) :
      SafeReachableRules reg →
      SafeReachableRules (dinsert reg name
        (Nm.RVal.rl { name := name, fields := fields }))

lemma has_rule_dinsert (reg : Nm.RuleReg) (k : PyStr) (v : Nm.RVal)
    (key : PyStr) (h : Nm.has_rule reg key = true) :
    Nm.has_rule (dinsert reg k v) key = true := by
  unfold Nm.has_rule at *
  by_cases hk : k = key
  · subst hk
    rw [dlookup_dinsert_self]
    rfl
  · rw [dlookup_dinsert_other reg k key v hk]
    exact h

lemma has_rule_set_active (reg : Nm.RuleReg) (name key : PyStr)
    (h : Nm.has_rule reg key = true) :
    Nm.has_rule (Nm.set_active_rule reg name).2 key = true := by
  unfold Nm.set_active_rule
  by_cases hh : Nm.has_rule reg name
  · simp only [hh, if_true]
    exact has_rule_dinsert reg Nm.activeKey (Nm.RVal.strv name) key h
  · simp only [hh, if_false]
    exact h

lemma has_rule_add_rule (reg : Nm.RuleReg) (name : PyStr)
    (fields : List PyStr) (key : PyStr) (h : Nm.has_rule reg key = true) :
    Nm.has_rule (Nm.add_rule reg name fields).1 key = true := by
  have hins : Nm.has_rule (dinsert reg name
      (Nm.RVal.rl { name := name, fields := fields })) key = true :=
    has_rule_dinsert reg name _ key h
  unfold Nm.add_rule
  cases hga : Nm.get_active_rule (dinsert reg name
      (Nm.RVal.rl { name := name, fields := fields })) with
  | exn e => exact hins
  | ok a =>
    cases a with
    | none => exact has_rule_set_active _ name key hins
    | some v => exact hins

lemma has_rule_remove_other (reg : Nm.RuleReg) (name key : PyStr)
    (hne : name ≠ key) (h : Nm.has_rule reg key = true) :
    Nm.has_rule (Nm.remove_rule reg name).2 key = true := by
  unfold Nm.remove_rule
  by_cases hh : Nm.has_rule reg name
  · simp only [hh, if_true]
    unfold Nm.has_rule at *
    rw [dlookup_derase_other reg name key hne]
    exact h
  · simp only [hh, if_false]
    exact h

/-- Claim C10 counterexample: the state after `remove_rule("_active")` on the
fresh registry is reachable, yet `has_rule("_active")` is `False` there — the
claimed invariant does not hold in every reachable state, because
`remove_rule` can delete the pointer key itself. -/
theorem c10_counterexample :
    ReachableRules (Nm.remove_rule Nm.initialRuleRegistry Nm.activeKey).2 ∧
    Nm.has_rule (Nm.remove_rule Nm.initialRuleRegistry Nm.activeKey).2
      Nm.activeKey = false :=
  ⟨ReachableRules.remove Nm.initialRuleRegistry Nm.activeKey
      ReachableRules.init,
    by decide⟩

/-- Claim C10 as amended: in every registry state reachable without ever
calling `remove_rule("_active")`, the pointer key `_active` counts as a rule —
`has_rule("_active")` returns `True` even though no rule of that name was
added — and consequently `set_active_rule("_active")` succeeds. -/
theorem c10_active_key_counts_as_rule (reg : Nm.RuleReg)
    (h : SafeReachableRules reg) :
    Nm.has_rule reg Nm.activeKey = true ∧
    (Nm.set_active_rule reg Nm.activeKey).1 = true := by
  have hmem : Nm.has_rule reg Nm.activeKey = true := by
    induction h with
    | init => rfl
    | add reg name fields hr ih => exact has_rule_add_rule reg name fields _ ih
    | remove reg name hne hr ih => exact has_rule_remove_other reg name _ hne ih
    | reset reg hr => rfl
    | setActive reg name hr ih => exact has_rule_set_active reg name _ ih
    | load reg name fields hr ih => exact has_rule_dinsert reg name _ _ ih
  refine ⟨hmem, ?_⟩
  unfold Nm.set_active_rule
  rw [hmem]
  rfl

/-- Witness for the amended C10 at the initial registry. -/
theorem c10_active_key_counts_as_rule_witness :
    Nm.has_rule Nm.initialRuleRegistry Nm.activeKey = true ∧
    (Nm.set_active_rule Nm.initialRuleRegistry Nm.activeKey).1 = true :=
  c10_active_key_counts_as_rule Nm.initialRuleRegistry SafeReachableRules.init

end Vfx
